import Mathlib

/-!
Verification of the booking-reviews-scraper extraction core against its
specification.

The development shallowly embeds the Python sources:
  * `src/extractors/booking_parser.py` (the Document Parser core),
  * `src/extractors/pagination_handler.py` (pagination),
  * `src/main.py` (the orchestrator's scrape loop).

An HTML document is modelled as the parse tree the parser operates on
(`Node`): `BeautifulSoup(html, "lxml")` is a total external function from
text to such trees, so quantifying over all trees covers all input strings.
Python dictionaries parsed from JSON are modelled by `Json` (JSON-LD blocks
relevant to the claims carry only null/bool/integer/string/array/object
values; `json.loads` is modelled by the executable `jsonLoads`).  Fallible
Python operations are modelled with `Except`/`Option`; a `try/except` of the
source appears as an explicit `match` on such a value.  Machine text
operations work on `List Char` so that every definition is executable and
kernel-reducible.
-/

/-! ## Python string primitives -/

/-- ASCII whitespace, the whitespace relevant to the scraper's inputs
(Python's `str.split`/`str.strip` also accept further Unicode whitespace). -/
def isWs (c : Char) : Bool :=
  c == ' ' || c == '\t' || c == '\n' || c == '\r'

/-- Helper of `pySplitWs`: accumulate the current word (reversed). -/
def splitWsAux : List Char → List Char → List String
  | [], acc => if acc.isEmpty then [] else [String.mk acc.reverse]
  | c :: rest, acc =>
    if isWs c then
      if acc.isEmpty then splitWsAux rest [] else String.mk acc.reverse :: splitWsAux rest []
    else splitWsAux rest (c :: acc)

/-- Python `str.split()` with no argument: split on whitespace runs, no empties. -/
def pySplitWs (s : String) : List String := splitWsAux s.data []

/-- Python `sep.join(parts)`. -/
def joinSep (sep : String) : List String → String
  | [] => ""
  | [x] => x
  | x :: xs => x ++ sep ++ joinSep sep xs

/-- `" ".join(text.split())`: collapse whitespace runs to single spaces, trimming ends. -/
def collapseWs (s : String) : String := joinSep (" ") (pySplitWs s)

/-- Drop leading whitespace characters. -/
def dropWsLeft : List Char → List Char
  | [] => []
  | c :: rest => if isWs c then dropWsLeft rest else c :: rest

/-- Python `str.strip()` with no argument. -/
def pyStrip (s : String) : String :=
  String.mk (dropWsLeft ((dropWsLeft s.data.reverse).reverse))

/-- Python `str.lower()` (ASCII case folding; the labels and type names the
claims touch are ASCII). -/
def pyLower (s : String) : String := String.mk (s.data.map Char.toLower)

/-- Replace every occurrence of the single character `pat` by the string `rep`
(the shape of every `str.replace` call in the source: `","` to `"."`,
`" "`/`"-"` to `"_"`, `"Z"` to `"+00:00"`). -/
def replaceCharList (pat : Char) (rep : List Char) : List Char → List Char
  | [] => []
  | c :: rest =>
    if c == pat then rep ++ replaceCharList pat rep rest
    else c :: replaceCharList pat rep rest

/-- `str.replace` restricted to a one-character pattern. -/
def pyReplaceChar (pat : Char) (rep : String) (s : String) : String :=
  String.mk (replaceCharList pat rep.data s.data)

/-- Value of a list of ASCII digit characters read in base 10. -/
def natOfDigits (l : List Char) : Nat :=
  l.foldl (fun acc c => acc * 10 + (c.toNat - 48)) 0

/-- `BookingReviewParser._extract_int_from_text`: keep every digit character of
the text, concatenate them and read the result as an integer; `None` when the
text has no digit.  (Python's `ch.isdigit()` also accepts non-ASCII digits,
which is the one case where the guarded `int(digits)` can raise and yield
`None`; the documents the claims concern are ASCII, where `int` always
succeeds.) -/
def extractIntFromText (text : String) : Option Int :=
  let digits := text.data.filter Char.isDigit
  if digits.isEmpty then none else some (natOfDigits digits : Int)

/-- Python `int(s)` on a string: strip whitespace, optional sign, decimal digits. -/
def pyIntOfString (s : String) : Except Unit Int :=
  match (pyStrip s).data with
  | '+' :: ds =>
    if !ds.isEmpty && ds.all Char.isDigit then .ok (natOfDigits ds : Int) else .error ()
  | '-' :: ds =>
    if !ds.isEmpty && ds.all Char.isDigit then .ok (-(natOfDigits ds : Int)) else .error ()
  | ds =>
    if !ds.isEmpty && ds.all Char.isDigit then .ok (natOfDigits ds : Int) else .error ()

/-- Longest digit prefix of a character list, with the remainder. -/
def takeDigits : List Char → (List Char × List Char)
  | [] => ([], [])
  | c :: rest =>
    if c.isDigit then
      let (d, r) := takeDigits rest
      (c :: d, r)
    else ([], c :: rest)

/-- Python `float(s)` on finite decimal literals, as an exact rational:
optional sign, integer and fractional digits (at least one digit overall),
optional exponent.  `inf`/`nan`/underscore forms are not modelled; no claim
depends on them, only on success or failure of the parse. -/
def pyFloatQ (s : String) : Option ℚ :=
  let l := (pyStrip s).data
  let (sgn, l) : ℚ × List Char :=
    match l with
    | '+' :: r => (1, r)
    | '-' :: r => (-1, r)
    | r => (1, r)
  let (ip, l) := takeDigits l
  let (fp, l) :=
    match l with
    | '.' :: r => takeDigits r
    | r => ([], r)
  if ip.isEmpty && fp.isEmpty then none
  else
    let mant : ℚ := ((natOfDigits (ip ++ fp) : Int) : ℚ) / ((10 : ℚ) ^ fp.length)
    match l with
    | [] => some (sgn * mant)
    | e :: r =>
      if e == 'e' || e == 'E' then
        match r with
        | '+' :: ds =>
          if !ds.isEmpty && ds.all Char.isDigit then
            some (sgn * mant * (10 : ℚ) ^ natOfDigits ds)
          else none
        | '-' :: ds =>
          if !ds.isEmpty && ds.all Char.isDigit then
            some (sgn * mant / (10 : ℚ) ^ natOfDigits ds)
          else none
        | ds =>
          if !ds.isEmpty && ds.all Char.isDigit then
            some (sgn * mant * (10 : ℚ) ^ natOfDigits ds)
          else none
      else none

/-! ## The document tree

The parse tree `BeautifulSoup` hands to the extraction code.  `NodeList` is a
specialised list of children so that all tree recursions are structural. -/

mutual
inductive Node where
  | text (s : String)
  | elem (tag : String) (attrs : List (String × String)) (children : NodeList)
inductive NodeList where
  | nil
  | cons (n : Node) (rest : NodeList)
end

/-- Build a `NodeList` from a `List Node`. -/
def nl : List Node → NodeList
  | [] => .nil
  | n :: rest => .cons n (nl rest)

/-- The attribute list of a node (text nodes have none). -/
def Node.attrList : Node → List (String × String)
  | .text _ => []
  | .elem _ a _ => a

/-- Attribute lookup, `tag["k"]` / `tag.get("k")`. -/
def Node.attr? (n : Node) (k : String) : Option String :=
  (n.attrList.find? (fun p => p.1 == k)).map (fun p => p.2)

/-- `tag.has_attr("k")`. -/
def Node.hasAttr (n : Node) (k : String) : Bool := (n.attr? k).isSome

/-- Whether the node is an element with the given tag name. -/
def Node.isTag (n : Node) (t : String) : Bool :=
  match n with
  | .elem tg _ _ => tg == t
  | .text _ => false

/-- Children of a node as a `NodeList`. -/
def childrenNL : Node → NodeList
  | .text _ => .nil
  | .elem _ _ cs => cs

mutual
/-- Descendants of a forest in document order (pre-order), each paired with
its ancestor stack, nearest ancestor first. -/
def descAnc (anc : List Node) : NodeList → List (Node × List Node)
  | .nil => []
  | .cons n rest => descAncNode anc n ++ descAnc anc rest

/-- A node together with its descendants, each paired with its ancestors. -/
def descAncNode (anc : List Node) : Node → List (Node × List Node)
  | .text s => [(Node.text s, anc)]
  | .elem t a cs => (Node.elem t a cs, anc) :: descAnc (Node.elem t a cs :: anc) cs
end

mutual
/-- Descendants of a forest in document order. -/
def descList : NodeList → List Node
  | .nil => []
  | .cons n rest => descNode n ++ descList rest

/-- A node together with its descendants in document order. -/
def descNode : Node → List Node
  | .text s => [.text s]
  | .elem t a cs => .elem t a cs :: descList cs
end

/-- Strict descendants of a node: what `soup.find`/`soup.select` search. -/
def strictDesc (n : Node) : List Node := descList (childrenNL n)

mutual
/-- The descendant text-node strings of a node, in document order; a text
node contributes itself (what `get_text` walks). -/
def textsNode : Node → List String
  | .text s => [s]
  | .elem _ _ cs => textsList cs

/-- Text-node strings of a forest. -/
def textsList : NodeList → List String
  | .nil => []
  | .cons n rest => textsNode n ++ textsList rest
end

/-- `node.get_text(strip=True)`: each descendant string stripped, concatenated. -/
def getTextStrip (n : Node) : String := joinSep ("") ((textsNode n).map pyStrip)

/-- `_safe_text` on a node that is present:
`" ".join(node.get_text(strip=True).split())`. -/
def safeTextN (n : Node) : String := collapseWs (getTextStrip n)

/-- `_safe_text(node)` where `node` came from a `find`: `bs4` tags are always
truthy (`Tag.__bool__` returns `True`), so `if not node` catches exactly the
`None` of a failed `find`. -/
def safeTextO : Option Node → String
  | none => ""
  | some n => safeTextN n

/-- `soup.find(attrs={k: v})`: first strict descendant whose attribute `k`
equals `v` exactly. -/
def findAttrEq (root : Node) (k v : String) : Option Node :=
  (strictDesc root).find? (fun n => n.attr? k == some v)

/-- `soup.select('[k="v"]')`: every strict descendant with attribute `k` equal
to `v`, in document order. -/
def selectAttrEq (root : Node) (k v : String) : List Node :=
  (strictDesc root).filter (fun n => n.attr? k == some v)

/-- `soup.find(name)`: first strict descendant element of the given tag. -/
def findTagNamed (root : Node) (t : String) : Option Node :=
  (strictDesc root).find? (fun n => n.isTag t)

/-- `soup.find_all(name)`: all strict descendant elements of the given tag. -/
def findAllTag (root : Node) (t : String) : List Node :=
  (strictDesc root).filter (fun n => n.isTag t)

/-- The whitespace-separated tokens of a node's `class` attribute. -/
def classList (n : Node) : List String :=
  match n.attr? ("class") with
  | some c => pySplitWs c
  | none => []

/-- `soup.find(class_=c)`: `bs4` matches a tag whose `class` tokens contain `c`. -/
def findClassHas (root : Node) (c : String) : Option Node :=
  (strictDesc root).find? (fun n => (classList n).contains c)

/-- `bs4`'s `.string`: the node's single text child, following single-child
chains; `None` when the node has zero or several children. -/
def nodeDotString : Node → Option String
  | .text s => some s
  | .elem _ _ (.cons c .nil) => nodeDotString c
  | .elem _ _ _ => none

/-- `script.string or "{}"`: `None` and the empty string both fall back. -/
def scriptPayload (n : Node) : String :=
  match nodeDotString n with
  | some s => if s.data.isEmpty then "\x7b\x7d" else s
  | none => "\x7b\x7d"

/-- The `<script type="application/ld+json">` elements of the document. -/
def findLdJsonScripts (root : Node) : List Node :=
  (strictDesc root).filter
    (fun n => n.isTag ("script") && n.attr? ("type") == some ("application/ld+json"))

/-! ## JSON values and `json.loads` -/

/-- A parsed JSON value as Python holds it (JSON `null` and Python `None`
coincide; numbers are restricted to integers, the only numeric shape the
claims' structured-data blocks carry). -/
inductive Json where
  | null
  | bool (b : Bool)
  | num (n : Int)
  | str (s : String)
  | arr (elems : List Json)
  | obj (fields : List (String × Json))

/-- Python truthiness of such a value. -/
def Json.truthy : Json → Bool
  | .null => false
  | .bool b => b
  | .num n => n != 0
  | .str s => !s.data.isEmpty
  | .arr xs => !xs.isEmpty
  | .obj fs => !fs.isEmpty

/-- `d.get(k)` on a parsed object: the stored value, `None` when absent. -/
def objGet (fields : List (String × Json)) (k : String) : Json :=
  match fields.find? (fun p => p.1 == k) with
  | some p => p.2
  | none => .null

/-- `d.get(k, default)`: the stored value (even a stored `null`), else the default. -/
def objGetD (fields : List (String × Json)) (k : String) (d : Json) : Json :=
  match fields.find? (fun p => p.1 == k) with
  | some p => p.2
  | none => d

/-- Skip JSON whitespace. -/
def jsSkipWs : List Char → List Char
  | [] => []
  | c :: rest =>
    if c == ' ' || c == '\t' || c == '\n' || c == '\r' then jsSkipWs rest else c :: rest

/-- JSON string body after the opening quote; handles the escapes the
documents use. -/
def jsStringAux : List Char → List Char → Option (String × List Char)
  | [], _ => none
  | '\\' :: e :: rest, acc =>
    if e == '"' then jsStringAux rest ('"' :: acc)
    else if e == '\\' then jsStringAux rest ('\\' :: acc)
    else if e == '/' then jsStringAux rest ('/' :: acc)
    else if e == 'n' then jsStringAux rest ('\n' :: acc)
    else if e == 't' then jsStringAux rest ('\t' :: acc)
    else if e == 'r' then jsStringAux rest ('\r' :: acc)
    else none
  | '"' :: rest, acc => some (String.mk acc.reverse, rest)
  | c :: rest, acc => jsStringAux rest (c :: acc)

/-- JSON integer (optionally signed); a following `.` or exponent is left in
the remainder, making the whole parse fail, which models such a payload as
malformed (the claims' blocks carry integers). -/
def jsNum (l : List Char) : Option (Int × List Char) :=
  match l with
  | '-' :: rest =>
    let (ds, r) := takeDigits rest
    if ds.isEmpty then none else some (-(natOfDigits ds : Int), r)
  | _ =>
    let (ds, r) := takeDigits l
    if ds.isEmpty then none else some ((natOfDigits ds : Int), r)

mutual
/-- Recursive-descent JSON value; `fuel` only bounds recursion depth and is
chosen large enough in `jsonLoads` that it never runs out on a parseable text. -/
def jsValue : Nat → List Char → Option (Json × List Char)
  | 0, _ => none
  | fuel + 1, l =>
    match jsSkipWs l with
    | '\x7b' :: rest => jsObjStart fuel rest
    | '[' :: rest => jsArrStart fuel rest
    | '"' :: rest => (jsStringAux rest []).map (fun p => (Json.str p.1, p.2))
    | 't' :: 'r' :: 'u' :: 'e' :: rest => some (.bool true, rest)
    | 'f' :: 'a' :: 'l' :: 's' :: 'e' :: rest => some (.bool false, rest)
    | 'n' :: 'u' :: 'l' :: 'l' :: rest => some (.null, rest)
    | other => (jsNum other).map (fun p => (Json.num p.1, p.2))

/-- Object body after `{`. -/
def jsObjStart : Nat → List Char → Option (Json × List Char)
  | 0, _ => none
  | fuel + 1, l =>
    match jsSkipWs l with
    | '\x7d' :: rest => some (.obj [], rest)
    | other => jsMembers fuel other []

/-- Object members, accumulated in order. -/
def jsMembers : Nat → List Char → List (String × Json) → Option (Json × List Char)
  | 0, _, _ => none
  | fuel + 1, l, acc =>
    match jsSkipWs l with
    | '"' :: rest =>
      match jsStringAux rest [] with
      | none => none
      | some (key, r1) =>
        match jsSkipWs r1 with
        | ':' :: r2 =>
          match jsValue fuel r2 with
          | none => none
          | some (v, r3) =>
            match jsSkipWs r3 with
            | ',' :: r4 => jsMembers fuel r4 (acc ++ [(key, v)])
            | '\x7d' :: r4 => some (.obj (acc ++ [(key, v)]), r4)
            | _ => none
        | _ => none
    | _ => none

/-- Array body after `[`. -/
def jsArrStart : Nat → List Char → Option (Json × List Char)
  | 0, _ => none
  | fuel + 1, l =>
    match jsSkipWs l with
    | ']' :: rest => some (.arr [], rest)
    | other => jsElems fuel other []

/-- Array elements, accumulated in order. -/
def jsElems : Nat → List Char → List Json → Option (Json × List Char)
  | 0, _, _ => none
  | fuel + 1, l, acc =>
    match jsValue fuel l with
    | none => none
    | some (v, r1) =>
      match jsSkipWs r1 with
      | ',' :: r2 => jsElems fuel r2 (acc ++ [v])
      | ']' :: r2 => some (.arr (acc ++ [v]), r2)
      | _ => none
end

/-- `json.loads`: parse the whole text as one JSON value; any leftover or
parse failure raises, modelled as `.error`. -/
def jsonLoads (s : String) : Except Unit Json :=
  match jsValue (4 * (s.data.length + 2)) s.data with
  | some (v, rest) => if (jsSkipWs rest).isEmpty then .ok v else .error ()
  | none => .error ()

/-! ## Python operations on parsed JSON values -/

/-- Decimal digits of a natural number (fuelled so the definition is
structural; `fuel` is chosen at the call site to exceed the number). -/
def natReprAux : Nat → Nat → List Char
  | 0, _ => []
  | fuel + 1, n => if n == 0 then [] else natReprAux fuel (n / 10) ++ [Char.ofNat (48 + n % 10)]

/-- Decimal rendering of a natural number. -/
def natRepr (n : Nat) : String :=
  if n == 0 then "0" else String.mk (natReprAux (n + 1) n)

/-- Decimal rendering of an integer. -/
def intRepr (n : Int) : String :=
  if n < 0 then "-" ++ natRepr n.natAbs else natRepr n.natAbs

/-- Python `str(x)` as consumed by the lodging-type membership test
`str(data_type).lower() not in {"hotel", "lodgingbusiness"}`.  For scalars it
is exact; for containers only the fact that `repr` of a list or dict starts
with a bracket or brace — so can never equal a bare type name — matters, and
the model keeps exactly that leading character. -/
def pyStrOf : Json → String
  | .null => "None"
  | .bool b => if b then "True" else "False"
  | .num n => intRepr n
  | .str s => s
  | .arr _ => "["
  | .obj _ => "\x7b"

/-- Python `int(x)` on a parsed JSON value: exact on integers, `True`/`False`
map to 1/0, numeric strings are parsed; anything else raises
(`TypeError`/`ValueError`), modelled as `.error`. -/
def pyInt : Json → Except Unit Int
  | .num n => .ok n
  | .bool b => .ok (if b then 1 else 0)
  | .str s => pyIntOfString s
  | _ => .error ()

/-- Python `x[0]`: head of a list, first character of a string; an empty list
raises `IndexError` and any other shape raises, modelled as `.error`. -/
def pyIndexZero : Json → Except Unit Json
  | .arr (x :: _) => .ok x
  | .arr [] => .error ()
  | .str s =>
    match s.data with
    | c :: _ => .ok (.str (String.mk [c]))
    | [] => .error ()
  | _ => .error ()

/-- Python `x.get(k)` on an arbitrary value: only dictionaries have `.get`;
any other shape raises `AttributeError`, modelled as `.error`. -/
def pyGetAttr : Json → String → Except Unit Json
  | .obj fs, k => .ok (objGet fs k)
  | _, _ => .error ()

/-! ## Hotel-level statistics (`BookingReviewParser._extract_hotel_stats`) -/

/-- One category entry of `HotelStatistics.scores`; `bounds` are reserved and
always unset by the current extraction. -/
structure ScoreEntry where
  score : ℚ
  translation : String
  boundsLower : Option ℚ
  boundsHigher : Option ℚ
deriving DecidableEq

/-- The hotel-level statistics dictionary.  `scores` keeps Python dict
insertion order. -/
structure HotelStats where
  totalReviews : Option Int
  scores : List (String × ScoreEntry)
deriving DecidableEq

/-- `BookingReviewParser._populate_stats_from_jsonld`, acting on the only
statistics field it can change (`totalReviews`).  `.error e` models an
uncaught exception escaping the call (every raise point lies before any
update, so the carried payload is the unchanged total); the guarded
`int(review_count)` failure is caught inside and changes nothing. -/
def populateStatsFromJsonld (data : Json) (total : Option Int) :
    Except (Option Int) (Option Int) :=
  match data with
  | .obj fields =>
    let t1 := objGet fields ("@type")
    let dataType0 : Except (Option Int) Json :=
      if t1.truthy then .ok t1
      else
        match pyIndexZero (objGetD fields ("@graph") (Json.arr [Json.obj []])) with
        | .error _ => .error total
        | .ok g0 =>
          match pyGetAttr g0 ("@type") with
          | .error _ => .error total
          | .ok t2 => .ok t2
    match dataType0 with
    | .error e => .error e
    | .ok dt0 =>
      let dataType : Except (Option Int) Json :=
        match dt0 with
        | .arr xs =>
          match pyIndexZero (.arr xs) with
          | .error _ => .error total
          | .ok h => .ok h
        | other => .ok other
      match dataType with
      | .error e => .error e
      | .ok dt =>
        if pyLower (pyStrOf dt) == ("hotel") || pyLower (pyStrOf dt) == ("lodgingbusiness") then
          let aggr := let a := objGet fields ("aggregateRating")
                      if a.truthy then a else Json.obj []
          match aggr with
          | .obj af =>
            let rc := let r := objGet af ("reviewCount")
                      if r.truthy then r else objGet af ("ratingCount")
            if rc.truthy && total.isNone then
              match pyInt rc with
              | .ok n => .ok (some n)
              | .error _ => .ok total
            else .ok total
          | _ => .ok total
        else .ok total
  | _ => .ok total

/-- The `for item in data` loop over a JSON-LD list payload. -/
def populateMany : List Json → Option Int → Except (Option Int) (Option Int)
  | [], t => .ok t
  | d :: rest, t =>
    match populateStatsFromJsonld d t with
    | .ok t2 => populateMany rest t2
    | .error e => .error e

/-- Strategy 1 of `_extract_hotel_stats`: the loop over every JSON-LD script,
wrapped in one `try/except` — the first exception (malformed JSON included)
abandons the remaining scripts, keeping whatever was set so far. -/
def jsonldScripts : List Node → Option Int → Option Int
  | [], t => t
  | s :: rest, t =>
    match jsonLoads (scriptPayload s) with
    | .error _ => t
    | .ok (.arr items) =>
      match populateMany items t with
      | .ok t2 => jsonldScripts rest t2
      | .error t2 => t2
    | .ok d =>
      match populateStatsFromJsonld d t with
      | .ok t2 => jsonldScripts rest t2
      | .error t2 => t2

/-- The `totalReviews` value strategy 1 observes on the document. -/
def jsonldTotal (soup : Node) : Option Int :=
  jsonldScripts (findLdJsonScripts soup) none

/-- Strategy 2 of `_extract_hotel_stats`: the review-score subtitle element's
digit run ("Based on 263 reviews" yields 263); a match with no digits yields
no value. -/
def subtitleTotal (soup : Node) : Option Int :=
  match findAttrEq soup ("data-testid") ("review-score-subtitle") with
  | some node => extractIntFromText (safeTextN node)
  | none => none

/-- `BookingReviewParser._normalize_score_label`. -/
def normalizeScoreLabel (label : String) : String :=
  pyReplaceChar '-' ("_") (pyReplaceChar ' ' ("_") (pyLower (pyStrip label)))

/-- Python dict assignment `d[k] = v`: overwrite in place, else append. -/
def dictSet : List (String × ScoreEntry) → String → ScoreEntry → List (String × ScoreEntry)
  | [], k, v => [(k, v)]
  | (k0, v0) :: rest, k, v =>
    if k0 == k then (k0, v) :: rest else (k0, v0) :: dictSet rest k v

/-- One `review-subscore` block of strategy 3: skipped when label or value is
missing/empty or the value does not parse as a float after normalising a
comma decimal. -/
def addScoreBlock (acc : List (String × ScoreEntry)) (block : Node) :
    List (String × ScoreEntry) :=
  let label := safeTextO (findAttrEq block ("data-testid") ("review-subscore-title"))
  let scoreText := safeTextO (findAttrEq block ("data-testid") ("review-subscore-value"))
  if label.data.isEmpty || scoreText.data.isEmpty then acc
  else
    match pyFloatQ (pyReplaceChar ',' (".") scoreText) with
    | none => acc
    | some v => dictSet acc (normalizeScoreLabel label) ⟨v, label, none, none⟩

/-- `BookingReviewParser._extract_hotel_stats`: strategy 1, then strategy 2 when
`totalReviews` is still unset, and the subscore accumulation. -/
def extractHotelStats (soup : Node) : HotelStats :=
  let total0 := jsonldTotal soup
  let total1 := if total0.isNone then subtitleTotal soup else total0
  { totalReviews := total1
    scores := (selectAttrEq soup ("data-testid") ("review-subscore")).foldl addScoreBlock [] }

/-! ## Review records (`BookingReviewParser._parse_single_review` and helpers) -/

/-- `guest` sub-record of a review. -/
structure GuestInfo where
  name : Option String
  country : Option String
  type : Option String
deriving DecidableEq

/-- `booking` sub-record of a review; `checkIn`/`checkOut` are reserved fields
the current extraction never sets. -/
structure BookingInfo where
  roomType : Option String
  checkIn : Option String
  checkOut : Option String
  nights : Option Int
  customerType : Option String
deriving DecidableEq

/-- One extracted review. -/
structure ReviewRecord where
  score : Option ℚ
  reviewDate : Option Int
  title : String
  positiveContent : String
  negativeContent : String
  language : Option String
  guest : GuestInfo
  booking : BookingInfo
  photos : List String
deriving DecidableEq

/-- `BookingReviewParser._parse_score`: test-id selector, then legacy badge
class, then micro-data attribute; comma decimals normalised; an unparseable
text yields `None` (the `try/except ValueError`). -/
def parseScore (card : Node) : Option ℚ :=
  let node :=
    match findAttrEq card ("data-testid") ("review-score") with
    | some n => some n
    | none =>
      match findClassHas card ("bui-review-score__badge") with
      | some n => some n
      | none => findAttrEq card ("itemprop") ("ratingValue")
  let text := safeTextO node
  if text.data.isEmpty then none
  else pyFloatQ (pyReplaceChar ',' (".") text)

/-- `BookingReviewParser._parse_title`: test-id selector, then `h3`, then a
legacy class. -/
def parseTitle (card : Node) : String :=
  safeTextO
    (match findAttrEq card ("data-testid") ("review-title") with
     | some n => some n
     | none =>
       match findTagNamed card ("h3") with
       | some n => some n
       | none => findClassHas card ("review-title"))

/-- Days since 1970-01-01 of a (validated) civil date, years from 1. -/
def daysFromCivil (y m d : Nat) : Int :=
  let yy : Int := if m ≤ 2 then (y : Int) - 1 else (y : Int)
  let era : Int := yy / 400
  let yoe : Int := yy - era * 400
  let mp : Int := if m ≤ 2 then (m : Int) + 9 else (m : Int) - 3
  let doy : Int := (153 * mp + 2) / 5 + (d : Int) - 1
  let doe : Int := yoe * 365 + yoe / 4 - yoe / 100 + doy
  era * 146097 + doe - 719468

/-- Value of exactly `k` leading ASCII digits, else `none`. -/
def fixedDigits (k : Nat) (l : List Char) : Option (Nat × List Char) :=
  let (ds, r) := (l.take k, l.drop k)
  if ds.length == k && ds.all Char.isDigit then some (natOfDigits ds, r) else none

/-- `datetime.fromisoformat` followed by `int(dt.timestamp())`, modelled for
the machine-readable shapes the pages carry: `YYYY-MM-DD`, optionally a time
`THH:MM:SS` (a space also separates), optionally a `+HH:MM`/`-HH:MM` offset.
A naive timestamp is interpreted as UTC (the system timezone of the model);
other ISO-8601 variants are not modelled — only success or failure reaches
any claim, and the result is only used when parsing succeeds. -/
def isoTimestamp (s : String) : Option Int :=
  match fixedDigits 4 s.data with
  | none => none
  | some (y, r1) =>
    match r1 with
    | '-' :: r2 =>
      match fixedDigits 2 r2 with
      | none => none
      | some (mo, r3) =>
        if mo < 1 || 12 < mo then none
        else
          match r3 with
          | '-' :: r4 =>
            match fixedDigits 2 r4 with
            | none => none
            | some (d, r5) =>
              if d < 1 || 31 < d then none
              else
                let base : Int := daysFromCivil y mo d * 86400
                match r5 with
                | [] => some base
                | sep :: r6 =>
                  if sep == 'T' || sep == ' ' then
                    match fixedDigits 2 r6 with
                    | none => none
                    | some (hh, r7) =>
                      match r7 with
                      | ':' :: r8 =>
                        match fixedDigits 2 r8 with
                        | none => none
                        | some (mi, r9) =>
                          match r9 with
                          | ':' :: r10 =>
                            match fixedDigits 2 r10 with
                            | none => none
                            | some (ss, r11) =>
                              if 23 < hh || 59 < mi || 59 < ss then none
                              else
                                let t : Int := base + (hh : Int) * 3600 + (mi : Int) * 60 + (ss : Int)
                                match r11 with
                                | [] => some t
                                | '+' :: r12 =>
                                  match fixedDigits 2 r12 with
                                  | none => none
                                  | some (oh, r13) =>
                                    match r13 with
                                    | ':' :: r14 =>
                                      match fixedDigits 2 r14 with
                                      | none => none
                                      | some (om, r15) =>
                                        if r15.isEmpty then
                                          some (t - ((oh : Int) * 3600 + (om : Int) * 60))
                                        else none
                                    | _ => none
                                | '-' :: r12 =>
                                  match fixedDigits 2 r12 with
                                  | none => none
                                  | some (oh, r13) =>
                                    match r13 with
                                    | ':' :: r14 =>
                                      match fixedDigits 2 r14 with
                                      | none => none
                                      | some (om, r15) =>
                                        if r15.isEmpty then
                                          some (t + ((oh : Int) * 3600 + (om : Int) * 60))
                                        else none
                                    | _ => none
                                | _ => none
                          | _ => none
                      | _ => none
                  else none
          | _ => none
    | _ => none

/-- `BookingReviewParser._parse_review_date`: the timestamp of a `<time>`
element's machine-readable `datetime` attribute (trailing `Z` rewritten to
`+00:00` first); when that is absent or unparseable the fallback block
inspects the human-readable date and deliberately still returns `None`. -/
def parseReviewDate (card : Node) : Option Int :=
  match findTagNamed card ("time") with
  | some tn =>
    match tn.attr? ("datetime") with
    | some dv => isoTimestamp (pyReplaceChar 'Z' ("+00:00") dv)
    | none => none
  | none => none

/-- `BookingReviewParser._parse_review_text`: explicit positive/negative
test-id elements; when both are absent or empty, the sequence of non-empty
paragraphs — one paragraph becomes positive content, two or more use the
first as positive and join the remainder as negative. -/
def parseReviewText (card : Node) : String × String :=
  let pos :=
    match findAttrEq card ("data-testid") ("review-positive-text") with
    | some n => safeTextN n
    | none => ""
  let neg :=
    match findAttrEq card ("data-testid") ("review-negative-text") with
    | some n => safeTextN n
    | none => ""
  if pos.data.isEmpty && neg.data.isEmpty then
    let paragraphs := (findAllTag card ("p")).filter (fun p => !(safeTextN p).data.isEmpty)
    match paragraphs with
    | [] => (pos, neg)
    | [p] => (safeTextN p, neg)
    | p :: rest => (safeTextN p, joinSep (" ") (rest.map safeTextN))
  else (pos, neg)

/-- The language of the nearest `html` ancestor, as `find_parent("html")`
followed by the `has_attr("lang")` check reads it (`none` when there is no
such ancestor or it lacks the attribute). -/
def htmlAncestorLang (ancestors : List Node) : Option String :=
  match ancestors.find? (fun a => a.isTag ("html")) with
  | some h => if h.hasAttr ("lang") then h.attr? ("lang") else none
  | none => none

/-- `BookingReviewParser._parse_language`: the card's `lang` attribute when
PRESENT (returned even when empty), else a truthy `data-review-language`,
else the root element's `lang` attribute when present. -/
def parseLanguage (card : Node) (ancestors : List Node) : Option String :=
  if card.hasAttr ("lang") then card.attr? ("lang")
  else
    match card.attr? ("data-review-language") with
    | some v => if v.data.isEmpty then htmlAncestorLang ancestors else some v
    | none => htmlAncestorLang ancestors

/-- `BookingReviewParser._parse_guest_info`. -/
def parseGuestInfo (card : Node) : GuestInfo :=
  let nameNode :=
    match findAttrEq card ("data-testid") ("reviewer-name") with
    | some n => some n
    | none => findClassHas card ("bui-avatar-block__title")
  let countryNode :=
    match findAttrEq card ("data-testid") ("reviewer-country") with
    | some n => some n
    | none => findClassHas card ("bui-avatar-block__subtitle")
  let gtype :=
    match findAttrEq card ("data-testid") ("reviewer-type") with
    | some n => let t := safeTextN n; if t.data.isEmpty then none else some t
    | none => none
  { name := let t := safeTextO nameNode; if t.data.isEmpty then none else some t
    country := let t := safeTextO countryNode; if t.data.isEmpty then none else some t
    type := gtype }

/-- `BookingReviewParser._parse_booking_info`: `nights` comes from
`_extract_int_from_text` over the stay-description text; `checkIn`/`checkOut`
are never set. -/
def parseBookingInfo (card : Node) : BookingInfo :=
  let roomType :=
    match findAttrEq card ("data-testid") ("review-room-type") with
    | some n => let t := safeTextN n; if t.data.isEmpty then none else some t
    | none => none
  let nights :=
    match findAttrEq card ("data-testid") ("review-stay-date") with
    | some n => extractIntFromText (safeTextN n)
    | none => none
  let customerType :=
    match findAttrEq card ("data-testid") ("review-customer-type") with
    | some n => let t := safeTextN n; if t.data.isEmpty then none else some t
    | none => none
  { roomType := roomType, checkIn := none, checkOut := none
    nights := nights, customerType := customerType }

/-- `img.get("src") or img.get("data-src")` then `if not src: continue`:
the candidate source of one image, `none` when both are missing or the
chosen one is empty. -/
def imgSrc (img : Node) : Option String :=
  let src :=
    match img.attr? ("src") with
    | some s => if s.data.isEmpty then img.attr? ("data-src") else some s
    | none => img.attr? ("data-src")
  match src with
  | some s => if s.data.isEmpty then none else some s
  | none => none

/-- Characters of a scheme after its leading letter (RFC 3986, as
`urllib.parse` accepts them). -/
def isSchemeChar (c : Char) : Bool :=
  c.isAlpha || c.isDigit || c == '+' || c == '-' || c == '.'

/-- Split a leading `scheme:` off the characters of a URL; `none` when there
is no colon-terminated scheme (the first character must be a letter). -/
def splitSchemeAux : List Char → List Char → Option (List Char × List Char)
  | [], _ => none
  | c :: rest, acc =>
    if c == ':' then (if acc.isEmpty then none else some (acc.reverse, rest))
    else if isSchemeChar c then splitSchemeAux rest (c :: acc)
    else none

/-- The scheme and remainder of a URL, as `urlparse` splits them. -/
def urlScheme (l : List Char) : Option (List Char × List Char) :=
  match l with
  | c :: _ => if c.isAlpha then splitSchemeAux l [] else none
  | [] => none

/-- The authority characters: up to the first `/`, `?` or `#`. -/
def netlocChars : List Char → List Char
  | [] => []
  | c :: rest => if c == '/' || c == '?' || c == '#' then [] else c :: netlocChars rest

/-- The `urlparse(src)` check of `_parse_photos`: both `parsed.scheme` and
`parsed.netloc` non-empty (the netloc exists only after `//`). -/
def urlHasSchemeAndNetloc (s : String) : Bool :=
  match urlScheme s.data with
  | none => false
  | some (_, rest) =>
    match rest with
    | '/' :: '/' :: r => !(netlocChars r).isEmpty
    | _ => false

/-- The image sources of a card that survive the absolute-URL check, in
document order (the `photos` list before de-duplication). -/
def validPhotoSrcs (card : Node) : List String :=
  (((findAllTag card ("img")).filterMap imgSrc).filter urlHasSchemeAndNetloc)

/-- The de-duplication loop of `_parse_photos` (`seen` set, first occurrence
kept, order preserved). -/
def dedupSeen : List String → List String → List String
  | [], _ => []
  | p :: rest, seen =>
    if seen.contains p then dedupSeen rest seen else p :: dedupSeen rest (p :: seen)

/-- `BookingReviewParser._parse_photos`. -/
def parsePhotos (card : Node) : List String :=
  dedupSeen (validPhotoSrcs card) []

/-- `language or self.language_hint` of the record assembly: the resolved
language when truthy (non-empty), else the hint. -/
def pyOrOptStr (a b : Option String) : Option String :=
  match a with
  | some s => if s.data.isEmpty then b else some s
  | none => b

/-- `BookingReviewParser._parse_single_review`: every field extracted
independently; a card whose title, positive and negative content are all
empty is dropped (`return None`).  Every fallible step inside is individually
guarded in the source, so the per-card `try/except` of `_extract_reviews`
has nothing to catch in the model. -/
def parseSingleReview (hint : Option String) (card : Node) (ancestors : List Node) :
    Option ReviewRecord :=
  let score := parseScore card
  let title := parseTitle card
  let reviewDate := parseReviewDate card
  let pn := parseReviewText card
  let language := parseLanguage card ancestors
  let guest := parseGuestInfo card
  let booking := parseBookingInfo card
  let photos := parsePhotos card
  if pn.1.data.isEmpty && pn.2.data.isEmpty && title.data.isEmpty then none
  else
    some { score := score, reviewDate := reviewDate, title := title
           positiveContent := pn.1, negativeContent := pn.2
           language := pyOrOptStr language hint
           guest := guest, booking := booking, photos := photos }

/-- The review-card elements of the document with their ancestor stacks:
the stable test-identifier selector, falling back to the legacy class or
micro-data selectors when it matches nothing. -/
def reviewCards (soup : Node) : List (Node × List Node) :=
  let pairs := descAnc [soup] (childrenNL soup)
  let primary := pairs.filter (fun p => p.1.attr? ("data-testid") == some ("review-card"))
  if primary.isEmpty then
    pairs.filter
      (fun p =>
        (classList p.1).contains ("review_list_new_item_block")
          || p.1.attr? ("itemprop") == some ("review"))
  else primary

/-- `BookingReviewParser._extract_reviews`: cards in document order, each
parsed independently, dropped cards skipped. -/
def extractReviews (hint : Option String) (soup : Node) : List ReviewRecord :=
  (reviewCards soup).filterMap (fun p => parseSingleReview hint p.1 p.2)

/-- `BookingReviewParser.parse`: statistics, reviews, and the in-parser
fallback that sets `totalReviews` to the current page's review count when no
strategy observed it. -/
def bookingParse (hint : Option String) (soup : Node) : HotelStats × List ReviewRecord :=
  let stats := extractHotelStats soup
  let reviews := extractReviews hint soup
  let stats2 :=
    if stats.totalReviews.isNone then
      { stats with totalReviews := some (reviews.length : Int) }
    else stats
  (stats2, reviews)

/-! ## Pagination (`PaginationHandler.iter_pages`)

The network fetch and the next-page resolution are the loop's collaborators:
`fetch` models `_fetch` (`None` on retry exhaustion) and `findNext` models
`_find_next_page_url` over the fetched HTML (its surrounding `try/except`
turns an exception into `None`, so a total function covers every resolver,
whichever of the three strategies produced the URL). -/

/-- The `while` loop of `iter_pages`, as the list of URLs it fetches, in
order.  The loop guard is `current_url and current_url not in visited_urls`;
each iteration adds the URL to the visited set before fetching; an empty or
missing body, or no next URL, ends the run.  `fuel` bounds the iteration
count (the Python loop itself may run unboundedly over an infinite supply of
fresh URLs). -/
def iterPagesUrls (fetch : String → Option String)
    (findNext : String → String → Option String) :
    Nat → String → List String → List String
  | 0, _, _ => []
  | fuel + 1, current, visited =>
    if current = "" ∨ current ∈ visited then []
    else
      let visited2 := current :: visited
      match fetch current with
      | none => [current]
      | some html =>
        if html.data.isEmpty then [current]
        else
          match findNext html current with
          | none => [current]
          | some nextUrl => current :: iterPagesUrls fetch findNext fuel nextUrl visited2

/-! ## The orchestrator (`scrape_reviews` of `main.py`)

Pages are the documents the paginator yields, in order; the loop parses each,
keeps the first page's statistics, and appends reviews one at a time,
stopping (`raise StopIteration`) as soon as the accumulated count reaches
`max_items`. -/

/-- The inner `for r in page_reviews` loop: append until
`len(all_reviews) >= max_items` fires; the flag says whether it did. -/
def appendUntilCap (maxItems : Int) :
    List ReviewRecord → List ReviewRecord → (List ReviewRecord × Bool)
  | acc, [] => (acc, false)
  | acc, r :: rest =>
    let acc2 := acc ++ [r]
    if maxItems ≤ (acc2.length : Int) then (acc2, true)
    else appendUntilCap maxItems acc2 rest

/-- The page loop of `scrape_reviews`: `hotel_stats` is set from the first
parsed page (a parsed statistics dict is always truthy), and the run stops at
the cap or when pages are exhausted. -/
def scrapePages (hint : Option String) (maxItems : Int) :
    Option HotelStats → List ReviewRecord → List Node → (Option HotelStats × List ReviewRecord)
  | hs, acc, [] => (hs, acc)
  | hs, acc, page :: rest =>
    let parsed := bookingParse hint page
    let hs2 := if hs.isNone then some parsed.1 else hs
    let stepped := appendUntilCap maxItems acc parsed.2
    if stepped.2 then (hs2, stepped.1) else scrapePages hint maxItems hs2 stepped.1 rest

/-- `scrape_reviews`: the final `(hotelStats, reviews)` result, with the
caller-level fallback `hotel_stats or {"totalReviews": len(all_reviews),
"scores": {}}` that fires only when no page yielded statistics. -/
def scrapeReviews (hint : Option String) (maxItems : Int) (pages : List Node) :
    HotelStats × List ReviewRecord :=
  let out := scrapePages hint maxItems none [] pages
  (out.1.getD { totalReviews := some (out.2.length : Int), scores := [] }, out.2)

/-! ## Helper lemmas -/

/-- A string's character list is empty exactly when the string is empty. -/
theorem strDataEmptyIff (s : String) : s.data.isEmpty = true ↔ s = ("") := by
  cases s with
  | mk data =>
    constructor
    · intro h
      have : data = [] := by simpa [List.isEmpty_iff] using h
      simp [this]
    · intro h
      have : data = [] := by
        have := congrArg String.data h
        simpa using this
      simp [this]

/-- The drop test of `_parse_single_review`: title, positive and negative
content all empty. -/
def cardDropped (card : Node) : Bool :=
  (parseReviewText card).1.data.isEmpty && (parseReviewText card).2.data.isEmpty
    && (parseTitle card).data.isEmpty

/-- The record `_parse_single_review` assembles when the card is kept. -/
def assembledRecord (hint : Option String) (card : Node) (ancestors : List Node) :
    ReviewRecord :=
  { score := parseScore card, reviewDate := parseReviewDate card, title := parseTitle card
    positiveContent := (parseReviewText card).1, negativeContent := (parseReviewText card).2
    language := pyOrOptStr (parseLanguage card ancestors) hint
    guest := parseGuestInfo card, booking := parseBookingInfo card, photos := parsePhotos card }

/-- `_parse_single_review` in closed form: drop or assemble. -/
theorem parseSingleReview_eq (hint : Option String) (card : Node) (anc : List Node) :
    parseSingleReview hint card anc =
      if cardDropped card then none else some (assembledRecord hint card anc) := by
  simp only [parseSingleReview, cardDropped, assembledRecord, Bool.and_assoc]

/-- The reserved booking fields are never set. -/
theorem parseBookingInfo_reserved (card : Node) :
    (parseBookingInfo card).checkIn = none ∧ (parseBookingInfo card).checkOut = none :=
  ⟨rfl, rfl⟩

/-- Membership in the emitted review list comes from some card parsing to the
record. -/
theorem mem_extractReviews {hint : Option String} {soup : Node} {r : ReviewRecord}
    (h : r ∈ extractReviews hint soup) :
    ∃ p ∈ reviewCards soup, parseSingleReview hint p.1 p.2 = some r := by
  simpa [extractReviews] using List.mem_filterMap.1 h

/-! ## Concrete documents used by the claims -/

/-- A review card carrying only a title. -/
def c2TitleCard : Node :=
  Node.elem ("div") [(("data-testid"), ("review-card"))]
    (nl [Node.elem ("div") [(("data-testid"), ("review-title"))] (nl [Node.text ("Lovely stay")])])

/-- A page with one titled review card and no observable total-review count. -/
def c2Doc : Node :=
  Node.elem ("html") [] (nl [Node.elem ("body") [] (nl [c2TitleCard])])

/-- A review card whose title, positive and negative content are all empty. -/
def c3EmptyCard : Node :=
  Node.elem ("div") [(("data-testid"), ("review-card"))]
    (nl [Node.elem ("span") [] (nl [Node.text ("  ")])])

/-- A review card with only a non-empty title. -/
def c3TitleCard : Node :=
  Node.elem ("div") [(("data-testid"), ("review-card"))]
    (nl [Node.elem ("h3") [] (nl [Node.text ("Great")])])

/-! ## The claims -/

/-- C1: for every document tree (any text parses to some tree, non-HTML
garbage included) and any language hint, `parse` returns a
`(HotelStatistics, review list)` pair — in the embedding every fallible
operation of the source is guarded, so the function is total — and fields the
extraction cannot determine stay unset, exemplified by the reserved
`checkIn`/`checkOut` fields of every emitted record. -/
theorem parse_total_and_reserved_unset (hint : Option String) (soup : Node) :
    ∃ stats reviews, bookingParse hint soup = (stats, reviews)
      ∧ ∀ r ∈ reviews, r.booking.checkIn = none ∧ r.booking.checkOut = none := by
  refine ⟨(bookingParse hint soup).1, (bookingParse hint soup).2, rfl, ?_⟩
  intro r hr
  obtain ⟨p, _, hp⟩ := mem_extractReviews hr
  rw [parseSingleReview_eq] at hp
  by_cases hd : cardDropped p.1
  · simp [hd] at hp
  · simp [hd] at hp
    rw [← hp]
    exact parseBookingInfo_reserved p.1

/-- C2 counterexample: on a page where no extraction strategy observes a
total review count (`extractHotelStats` leaves it unset) but one review card
is emitted, `parse` itself returns `totalReviews = 1`, not an unset field:
the count derivation happens inside the parser, not only in the caller-level
aggregation. -/
theorem parser_derives_total_inside_cex :
    (extractHotelStats c2Doc).totalReviews = none
      ∧ (bookingParse none c2Doc).1.totalReviews = some 1
      ∧ (bookingParse none c2Doc).1.totalReviews ≠ none := by
  refine ⟨by decide, by decide, by decide⟩

/-- C2 amended: `parse` itself fills `totalReviews` with the current page's
emitted review count whenever no strategy observed a value (otherwise it
keeps the observed value); the orchestrator keeps the first parsed page's
statistics unchanged, and its own count fallback fires only when no page was
parsed at all. -/
theorem parser_total_reviews_derivation :
    (∀ (hint : Option String) (soup : Node),
      (bookingParse hint soup).1.totalReviews
        = some (((extractHotelStats soup).totalReviews).getD
            ((bookingParse hint soup).2.length : Int)))
    ∧ (∀ (hint : Option String) (m : Int) (p : Node) (ps : List Node),
      (scrapeReviews hint m (p :: ps)).1 = (bookingParse hint p).1)
    ∧ (∀ (hint : Option String) (m : Int),
      (scrapeReviews hint m []).1 = { totalReviews := some 0, scores := [] }) := by
  refine ⟨?_, ?_, ?_⟩
  · intro hint soup
    by_cases h : (extractHotelStats soup).totalReviews = none
    · simp [bookingParse, h]
    · obtain ⟨t, ht⟩ := Option.ne_none_iff_exists'.1 h
      simp [bookingParse, ht]
  · intro hint m p ps
    have keep : ∀ (pages : List Node) (hs : HotelStats) (acc : List ReviewRecord),
        (scrapePages hint m (some hs) acc pages).1 = some hs := by
      intro pages
      induction pages with
      | nil => intro hs acc; rfl
      | cons q qs ih =>
        intro hs acc
        simp only [scrapePages]
        split
        · rfl
        · exact ih hs _
    have step : (scrapePages hint m none [] (p :: ps)).1 = some (bookingParse hint p).1 := by
      simp only [scrapePages]
      split
      · rfl
      · exact keep ps _ _
    simp only [scrapeReviews]
    rw [step]
    rfl
  · intro hint m
    rfl

/-- C3: a card whose extracted title, positive content and negative content
are all empty is never emitted; a card with a non-empty title is always
emitted; every record in `parse`'s output has a non-empty title, positive
content or negative content; and the two concrete cards behave accordingly. -/
theorem review_card_empty_filter :
    (∀ (hint : Option String) (card : Node) (anc : List Node),
      parseTitle card = ("") → (parseReviewText card).1 = ("") → (parseReviewText card).2 = ("") →
      parseSingleReview hint card anc = none)
    ∧ (∀ (hint : Option String) (card : Node) (anc : List Node),
      parseTitle card ≠ ("") →
      ∃ r, parseSingleReview hint card anc = some r ∧ r.title = parseTitle card)
    ∧ (∀ (hint : Option String) (soup : Node), ∀ r ∈ (bookingParse hint soup).2,
      r.title ≠ ("") ∨ r.positiveContent ≠ ("") ∨ r.negativeContent ≠ (""))
    ∧ parseSingleReview none c3EmptyCard [] = none
    ∧ (parseSingleReview none c3TitleCard []).isSome = true := by
  refine ⟨?_, ?_, ?_, by decide, by decide⟩
  · intro hint card anc h1 h2 h3
    rw [parseSingleReview_eq]
    have hd : cardDropped card = true := by
      simp [cardDropped, strDataEmptyIff, h1, h2, h3]
    simp [hd]
  · intro hint card anc h
    have hd : cardDropped card = false := by
      simp only [cardDropped]
      have : (parseTitle card).data.isEmpty = false := by
        cases hx : (parseTitle card).data.isEmpty
        · rfl
        · exact absurd ((strDataEmptyIff _).1 hx) h
      simp [this]
    rw [parseSingleReview_eq, hd]
    exact ⟨assembledRecord hint card anc, by simp, rfl⟩
  · intro hint soup r hr
    obtain ⟨p, _, hp⟩ := mem_extractReviews hr
    rw [parseSingleReview_eq] at hp
    by_cases hd : cardDropped p.1
    · simp [hd] at hp
    · rw [if_neg hd] at hp
      have hrec : r = assembledRecord hint p.1 p.2 := (Option.some.inj hp).symm
      subst hrec
      by_contra hcon
      push_neg at hcon
      obtain ⟨ht, hpos, hneg⟩ := hcon
      simp only [assembledRecord] at ht hpos hneg
      apply hd
      simp only [cardDropped, Bool.and_eq_true]
      exact ⟨⟨(strDataEmptyIff _).2 hpos, (strDataEmptyIff _).2 hneg⟩, (strDataEmptyIff _).2 ht⟩

/-- A review card whose stay-description block reads "Stayed 2 nights in
August 2022". -/
def c4StayCard : Node :=
  Node.elem ("div") [(("data-testid"), ("review-card"))]
    (nl [Node.elem ("div") [(("data-testid"), ("review-stay-date"))]
          (nl [Node.text ("Stayed 2 nights in August 2022")]),
         Node.elem ("h3") [] (nl [Node.text ("Okay")])])

/-- C4 (code bug): `_extract_int_from_text` concatenates every digit of the
stay text, so the documented example "Stayed 2 nights in August 2022" — the
very example in the source's own comment — yields `nights = 22022`, not the
first digit run 2 the spec (and the field's meaning) intends. -/
theorem nights_digit_concatenation :
    extractIntFromText ("Stayed 2 nights in August 2022") = some 22022
      ∧ (parseBookingInfo c4StayCard).nights = some 22022
      ∧ extractIntFromText ("Stayed 2 nights in August 2022") ≠ some 2 := by
  exact ⟨by decide, by decide, by decide⟩

/-! ## C5: photo extraction -/

/-- Everything `dedupSeen` keeps was in the input and outside the seen set,
and conversely. -/
theorem dedupSeen_mem : ∀ (l seen : List String) (x : String),
    x ∈ dedupSeen l seen ↔ (x ∈ l ∧ x ∉ seen) := by
  intro l
  induction l with
  | nil => intro seen x; simp [dedupSeen]
  | cons p rest ih =>
    intro seen x
    simp only [dedupSeen]
    by_cases hc : p ∈ seen
    · rw [if_pos (by simp [List.contains, hc]), ih]
      simp only [List.mem_cons]
      constructor
      · rintro ⟨hx, hns⟩
        exact ⟨Or.inr hx, hns⟩
      · rintro ⟨hx | hx, hns⟩
        · exact absurd (hx ▸ hc) hns
        · exact ⟨hx, hns⟩
    · rw [if_neg (by simp [List.contains, hc])]
      constructor
      · intro hx
        rcases List.mem_cons.1 hx with h1 | h1
        · exact ⟨List.mem_cons.2 (Or.inl h1), h1 ▸ hc⟩
        · have h2 := (ih (p :: seen) x).1 h1
          exact ⟨List.mem_cons.2 (Or.inr h2.1),
            fun hs => h2.2 (List.mem_cons.2 (Or.inr hs))⟩
      · rintro ⟨hx, hns⟩
        rcases List.mem_cons.1 hx with h1 | h1
        · exact List.mem_cons.2 (Or.inl h1)
        · by_cases hxp : x = p
          · exact List.mem_cons.2 (Or.inl hxp)
          · refine List.mem_cons.2 (Or.inr ((ih (p :: seen) x).2 ⟨h1, ?_⟩))
            intro hs
            rcases List.mem_cons.1 hs with h2 | h2
            · exact hxp h2
            · exact hns h2

/-- `dedupSeen` only drops elements, keeping order. -/
theorem dedupSeen_sublist : ∀ (l seen : List String), List.Sublist (dedupSeen l seen) l := by
  intro l
  induction l with
  | nil => intro seen; simp [dedupSeen]
  | cons p rest ih =>
    intro seen
    simp only [dedupSeen]
    split
    · exact (ih _).trans (List.sublist_cons_self p rest)
    · exact (ih _).cons₂ p

/-- `dedupSeen`'s output has no duplicates. -/
theorem dedupSeen_nodup : ∀ (l seen : List String), (dedupSeen l seen).Nodup := by
  intro l
  induction l with
  | nil => intro seen; simp [dedupSeen]
  | cons p rest ih =>
    intro seen
    simp only [dedupSeen]
    split
    · exact ih _
    · refine List.nodup_cons.2 ⟨?_, ih _⟩
      intro hmem
      exact ((dedupSeen_mem _ _ _).1 hmem).2 (List.mem_cons_self p seen)

/-- A review card with one relative image source and one absolute source that
appears twice. -/
def c5PhotoCard : Node :=
  Node.elem ("div") [(("data-testid"), ("review-card"))]
    (nl [Node.elem ("img") [(("src"), ("/img/a.jpg"))] .nil,
         Node.elem ("img") [(("src"), ("https://x.com/b.jpg"))] .nil,
         Node.elem ("img") [(("src"), ("https://x.com/b.jpg"))] .nil,
         Node.elem ("h3") [] (nl [Node.text ("Pics")])])

/-- C5: every emitted photo parses as an absolute URL (scheme and host both
present), the list has no duplicates, keeps the first-seen order of the
collected sources, contains exactly the absolute sources, and the concrete
card with sources `["/img/a.jpg", "https://x.com/b.jpg",
"https://x.com/b.jpg"]` yields exactly `["https://x.com/b.jpg"]`. -/
theorem photos_absolute_dedup_ordered :
    (∀ (card : Node) (u : String), u ∈ parsePhotos card → urlHasSchemeAndNetloc u = true)
    ∧ (∀ (card : Node), (parsePhotos card).Nodup)
    ∧ (∀ (card : Node), List.Sublist (parsePhotos card) (validPhotoSrcs card))
    ∧ (∀ (card : Node) (u : String), u ∈ parsePhotos card ↔ u ∈ validPhotoSrcs card)
    ∧ parsePhotos c5PhotoCard = [("https://x.com/b.jpg")] := by
  refine ⟨?_, ?_, ?_, ?_, by decide⟩
  · intro card u hu
    have hv : u ∈ validPhotoSrcs card := ((dedupSeen_mem _ _ _).1 hu).1
    simp only [validPhotoSrcs] at hv
    exact List.of_mem_filter hv
  · intro card
    exact dedupSeen_nodup _ _
  · intro card
    exact dedupSeen_sublist _ _
  · intro card u
    rw [show parsePhotos card = dedupSeen (validPhotoSrcs card) [] from rfl, dedupSeen_mem]
    simp

/-! ## JSON-LD block lemmas (C6, C10) -/

/-- Evaluation of `_populate_stats_from_jsonld` on a lodging-typed block with
an object-shaped aggregate rating and no total set yet: `reviewCount` when
truthy, else `ratingCount`; a truthy choice is coerced by the guarded `int`. -/
theorem populateLodgingBlockEval (tv : String) (af : List (String × Json))
    (h : pyLower tv = ("hotel") ∨ pyLower tv = ("lodgingbusiness")) :
    populateStatsFromJsonld
        (Json.obj [(("@type"), Json.str tv), (("aggregateRating"), Json.obj af)]) none
      = (let rc := if (objGet af ("reviewCount")).truthy then objGet af ("reviewCount")
                   else objGet af ("ratingCount")
         if rc.truthy then
           match pyInt rc with
           | .ok n => Except.ok (some n)
           | .error _ => Except.ok none
         else Except.ok none) := by
  have hne : tv.data.isEmpty = false := by
    cases hemp : tv.data.isEmpty
    · rfl
    · have he : tv = ("") := (strDataEmptyIff tv).1 hemp
      subst he
      rcases h with h | h
      · exact absurd h (by decide)
      · exact absurd h (by decide)
  have hT : (Json.str tv).truthy = true := by simp [Json.truthy, hne]
  have hne2 : ¬ tv.data = [] := fun hh => by simp [hh] at hne
  have hguard : (pyLower tv == ("hotel") || pyLower tv == ("lodgingbusiness")) = true := by
    rcases h with h | h <;> simp [h]
  have h1 : objGet [(("@type"), Json.str tv), (("aggregateRating"), Json.obj af)] ("@type")
      = Json.str tv := rfl
  have h2 : objGet [(("@type"), Json.str tv), (("aggregateRating"), Json.obj af)]
      ("aggregateRating") = Json.obj af := rfl
  have h3 : pyStrOf (Json.str tv) = tv := rfl
  by_cases haf : af = []
  · subst haf
    simp [populateStatsFromJsonld, h1, h2, hT, h3, hguard, hne2, Json.truthy, objGet]
  · have htr : (Json.obj af).truthy = true := by
      simp [Json.truthy, List.isEmpty_iff, haf]
    simp [populateStatsFromJsonld, h1, h2, hT, h3, hguard, hne2, htr]

/-- Once `totalReviews` is set, `_populate_stats_from_jsonld` never changes
it: the result — normal or raised — carries the same value. -/
theorem populate_keeps_set (d : Json) (t : Int) :
    populateStatsFromJsonld d (some t) = Except.ok (some t)
      ∨ populateStatsFromJsonld d (some t) = Except.error (some t) := by
  cases d <;> simp only [populateStatsFromJsonld]
  case obj fields =>
    repeat' split
    all_goals try simp_all
    all_goals (rename_i heq; repeat' split at heq)
    all_goals simp_all
  all_goals simp

/-- The list loop preserves an already-set total the same way. -/
theorem populateMany_keeps_set : ∀ (items : List Json) (t : Int),
    populateMany items (some t) = Except.ok (some t)
      ∨ populateMany items (some t) = Except.error (some t) := by
  intro items t
  induction items with
  | nil => left; rfl
  | cons d rest ih =>
    simp only [populateMany]
    rcases populate_keeps_set d t with h | h
    · rw [h]; exact ih
    · rw [h]; right; rfl

/-- Strategy 1 as a whole: the first total found wins — later scripts (and
exceptions in them) never change an already-set value. -/
theorem jsonldScripts_keeps_set : ∀ (scripts : List Node) (t : Int),
    jsonldScripts scripts (some t) = some t := by
  intro scripts t
  induction scripts with
  | nil => rfl
  | cons s rest ih =>
    simp only [jsonldScripts]
    split
    · rfl
    · rename_i items heq
      rcases populateMany_keeps_set items t with h | h <;> rw [h]
      exact ih
    · rename_i d heq hne
      rcases populate_keeps_set d t with h | h <;> rw [h]
      exact ih

/-- A `<script type="application/ld+json">` element holding a payload. -/
def scriptNodeLd (payload : String) : Node :=
  Node.elem ("script") [(("type"), ("application/ld+json"))] (nl [Node.text payload])

/-- A document whose single structured-data block is a lodging entity with
`reviewCount = 0` and `ratingCount = 5`. -/
def c6DocZeroCount : Node :=
  Node.elem ("html") []
    (nl [scriptNodeLd
      ("\x7b\"@type\": \"Hotel\", \"aggregateRating\": \x7b\"reviewCount\": 0, \"ratingCount\": 5\x7d\x7d")])

/-- A document whose first block (`{"@graph": []}`) lacks a lodging type and
raises during type resolution, followed by a lodging block with
`reviewCount = 42`. -/
def c6DocGraphFirst : Node :=
  Node.elem ("html") []
    (nl [scriptNodeLd ("\x7b\"@graph\": []\x7d"),
         scriptNodeLd ("\x7b\"@type\": \"Hotel\", \"aggregateRating\": \x7b\"reviewCount\": 42\x7d\x7d")])

/-- A document whose first block is a plain non-lodging object, followed by a
lodging block with `reviewCount = 42`. -/
def c6DocNonLodgingFirst : Node :=
  Node.elem ("html") []
    (nl [scriptNodeLd ("\x7b\"@type\": \"BreadcrumbList\"\x7d"),
         scriptNodeLd ("\x7b\"@type\": \"Hotel\", \"aggregateRating\": \x7b\"reviewCount\": 42\x7d\x7d")])

/-- C6 counterexample: (1) in a lodging block with `reviewCount` PRESENT but
`0`, the parser takes `ratingCount` (= 5) — `ratingCount` is consulted not
only when `reviewCount` is absent, because the fallback uses Python
truthiness; (2) a preceding block that merely lacks a lodging type can abort
strategy 1 entirely (`{"@graph": []}` raises on `[][0]`), so the lodging
block's `reviewCount = 42` is never read and `parse` returns the derived
count 0, not 42. -/
theorem jsonld_reviewcount_cex :
    populateStatsFromJsonld
        (Json.obj [(("@type"), Json.str ("Hotel")),
          (("aggregateRating"),
            Json.obj [(("reviewCount"), Json.num 0), (("ratingCount"), Json.num 5)])]) none
      = Except.ok (some 5)
    ∧ (extractHotelStats c6DocZeroCount).totalReviews = some 5
    ∧ (bookingParse none c6DocGraphFirst).1.totalReviews = some 0
    ∧ (bookingParse none c6DocGraphFirst).1.totalReviews ≠ some 42 := by
  exact ⟨rfl, by decide, by decide, by decide⟩

/-- C6 amended: a lodging block's `aggregateRating.reviewCount = 42` wins
`totalReviews` when the preceding block resolves without raising (e.g. a
plain non-lodging object); within a lodging block `reviewCount` is used when
truthy and `ratingCount` only as its fallback; and the first value found wins
— once set, no later script changes it. -/
theorem jsonld_total_first_wins :
    (bookingParse none c6DocNonLodgingFirst).1.totalReviews = some 42
    ∧ (∀ (scripts : List Node) (t : Int), jsonldScripts scripts (some t) = some t)
    ∧ (∀ (tv : String) (af : List (String × Json)) (n : Int),
        (pyLower tv = ("hotel") ∨ pyLower tv = ("lodgingbusiness")) →
        (objGet af ("reviewCount")).truthy = true →
        pyInt (objGet af ("reviewCount")) = Except.ok n →
        populateStatsFromJsonld
          (Json.obj [(("@type"), Json.str tv), (("aggregateRating"), Json.obj af)]) none
          = Except.ok (some n)) := by
  refine ⟨by decide, jsonldScripts_keeps_set, ?_⟩
  intro tv af n h h1 h2
  rw [populateLodgingBlockEval tv af h]
  simp only [h1, if_true, h2]

/-! ## C7: language resolution -/

/-- A review card whose `lang` attribute is present but empty while its
`data-review-language` attribute is "fr". -/
def c7LangCard : Node :=
  Node.elem ("div")
    [(("data-testid"), ("review-card")), (("lang"), ("")), (("data-review-language"), ("fr"))]
    (nl [Node.elem ("h3") [] (nl [Node.text ("Bien")])])

/-- C7 counterexample: with the card's own language attribute present but
empty, the later sources are NOT consulted — `_parse_language` returns the
empty value immediately, the data attribute's "fr" is skipped, and the
record's language falls through to the caller hint "en". -/
theorem language_empty_attr_shortcircuit_cex :
    parseLanguage c7LangCard [] = some ("")
    ∧ c7LangCard.attr? ("data-review-language") = some ("fr")
    ∧ (parseSingleReview (some ("en")) c7LangCard []).map (fun r => r.language)
        = some (some ("en"))
    ∧ some (some ("en")) ≠ some (some ("fr")) := by
  exact ⟨by decide, by decide, by decide, by decide⟩

/-- C7 amended: the card's own `lang` attribute wins whenever PRESENT, even
empty; an absent or empty `data-review-language` falls through to the root
element's language; a truthy data attribute wins; and at record assembly the
caller hint replaces an empty or missing resolved value. -/
theorem language_resolution_amended :
    (∀ (card : Node) (anc : List Node), card.hasAttr ("lang") = true →
      parseLanguage card anc = card.attr? ("lang"))
    ∧ (∀ (card : Node) (anc : List Node), card.hasAttr ("lang") = false →
      card.attr? ("data-review-language") = some ("") →
      parseLanguage card anc = htmlAncestorLang anc)
    ∧ (∀ (card : Node) (anc : List Node), card.hasAttr ("lang") = false →
      card.attr? ("data-review-language") = none →
      parseLanguage card anc = htmlAncestorLang anc)
    ∧ (∀ (card : Node) (anc : List Node) (s : String), card.hasAttr ("lang") = false →
      card.attr? ("data-review-language") = some s → s ≠ ("") →
      parseLanguage card anc = some s)
    ∧ (∀ (hint : Option String) (card : Node) (anc : List Node) (r : ReviewRecord),
      parseSingleReview hint card anc = some r →
      r.language = pyOrOptStr (parseLanguage card anc) hint)
    ∧ (∀ (b : Option String), pyOrOptStr (some ("")) b = b ∧ pyOrOptStr none b = b)
    ∧ (∀ (s : String) (b : Option String), s ≠ ("") → pyOrOptStr (some s) b = some s) := by
  refine ⟨?_, ?_, ?_, ?_, ?_, ?_, ?_⟩
  · intro card anc h
    simp [parseLanguage, h]
  · intro card anc h1 h2
    simp [parseLanguage, h1, h2]
  · intro card anc h1 h2
    simp [parseLanguage, h1, h2]
  · intro card anc s h1 h2 h3
    have hemp : s.data.isEmpty = false := by
      cases hx : s.data.isEmpty
      · rfl
      · exact absurd ((strDataEmptyIff s).1 hx) h3
    simp [parseLanguage, h1, h2, hemp]
  · intro hint card anc r h
    rw [parseSingleReview_eq] at h
    by_cases hd : cardDropped card
    · simp [hd] at h
    · rw [if_neg hd] at h
      have hrec : r = assembledRecord hint card anc := (Option.some.inj h).symm
      subst hrec
      rfl
  · intro b
    exact ⟨rfl, rfl⟩
  · intro s b h
    have hemp : s.data.isEmpty = false := by
      cases hx : s.data.isEmpty
      · rfl
      · exact absurd ((strDataEmptyIff s).1 hx) h
    simp [pyOrOptStr, hemp]

/-! ## C8: pagination never revisits a URL -/

/-- Loop invariant of `iter_pages`: nothing fetched is in the incoming
visited set, and the fetched URLs are pairwise distinct. -/
theorem iterPagesUrls_fresh (fetch : String → Option String)
    (findNext : String → String → Option String) :
    ∀ (fuel : Nat) (current : String) (visited : List String),
      (∀ u ∈ iterPagesUrls fetch findNext fuel current visited, u ∉ visited)
        ∧ (iterPagesUrls fetch findNext fuel current visited).Nodup := by
  intro fuel
  induction fuel with
  | zero => intro current visited; simp [iterPagesUrls]
  | succ n ih =>
    intro current visited
    simp only [iterPagesUrls]
    split
    · simp
    · rename_i hguard
      push_neg at hguard
      obtain ⟨hne, hnv⟩ := hguard
      split
      · constructor
        · intro u hu
          rw [List.mem_singleton.1 hu]
          exact hnv
        · simp
      · split
        · constructor
          · intro u hu
            rw [List.mem_singleton.1 hu]
            exact hnv
          · simp
        · split
          · constructor
            · intro u hu
              rw [List.mem_singleton.1 hu]
              exact hnv
            · simp
          · rename_i nextUrl hn
            have ihh := ih nextUrl (current :: visited)
            constructor
            · intro u hu
              rcases List.mem_cons.1 hu with h | h
              · exact h ▸ hnv
              · intro hv
                exact (ihh.1 u h) (List.mem_cons.2 (Or.inr hv))
            · refine List.nodup_cons.2 ⟨?_, ihh.2⟩
              intro hc
              exact (ihh.1 current hc) (List.mem_cons_self _ _)

/-- C8: in every pagination run, no URL already visited in that run is ever
fetched again — whatever resolver produced the next URL (the quantification
over `findNext` covers the rel=next, label/text and test-identifier
strategies alike); the cycle guard lives in the orchestrating loop. -/
theorem pagination_no_revisit (fetch : String → Option String)
    (findNext : String → String → Option String) (fuel : Nat) (start : String) :
    (iterPagesUrls fetch findNext fuel start []).Nodup :=
  (iterPagesUrls_fresh fetch findNext fuel start []).2

/-! ## C9: the item cap -/

/-- The inner append loop keeps the accumulated length below or at
`max maxItems 1`, and reports "not capped" only while strictly below it. -/
theorem appendUntilCap_bound (m : Int) : ∀ (rs acc : List ReviewRecord),
    ((acc.length : Int) < max m 1) →
    (((appendUntilCap m acc rs).1.length : Int) ≤ max m 1
      ∧ ((appendUntilCap m acc rs).2 = false →
          ((appendUntilCap m acc rs).1.length : Int) < max m 1)) := by
  intro rs
  induction rs with
  | nil =>
    intro acc h
    exact ⟨le_of_lt h, fun _ => h⟩
  | cons r rest ih =>
    intro acc h
    simp only [appendUntilCap]
    split
    · rename_i hcap
      constructor
      · have hl : (((acc ++ [r]).length : Nat) : Int) = (acc.length : Int) + 1 := by
          rw [List.length_append]
          push_cast
          simp
        rw [hl]
        exact Int.add_one_le_iff.2 h
      · intro hfalse
        simp at hfalse
    · rename_i hcap
      apply ih
      have h1 : (((acc ++ [r]).length : Nat) : Int) < m := not_le.1 hcap
      exact lt_of_lt_of_le h1 (le_max_left m 1)

/-- The page loop keeps the accumulated length below or at `max maxItems 1`. -/
theorem scrapePages_len_bound (hint : Option String) (m : Int) :
    ∀ (pages : List Node) (hs : Option HotelStats) (acc : List ReviewRecord),
      ((acc.length : Int) < max m 1) →
      (((scrapePages hint m hs acc pages).2.length : Int) ≤ max m 1) := by
  intro pages
  induction pages with
  | nil =>
    intro hs acc h
    exact le_of_lt h
  | cons p rest ih =>
    intro hs acc h
    simp only [scrapePages]
    split
    · exact (appendUntilCap_bound m _ acc h).1
    · rename_i hc
      apply ih
      refine (appendUntilCap_bound m _ acc h).2 ?_
      cases hsb : (appendUntilCap m acc (bookingParse hint p).2).2
      · rfl
      · exact absurd hsb hc

/-- A page with one titled review card, used by the item-cap claims. -/
def c9Doc : Node :=
  Node.elem ("html") []
    (nl [Node.elem ("body") []
      (nl [Node.elem ("div") [(("data-testid"), ("review-card"))]
        (nl [Node.elem ("h3") [] (nl [Node.text ("Nice")])])])])

/-- C9 counterexample: with `max_items = 0` and a page carrying one review,
the orchestrator still appends a record before the cap check fires, so the
sequence handed to the exporter holds 1 > 0 records. -/
theorem item_cap_zero_cex :
    (scrapeReviews none 0 [c9Doc]).2.length = 1
      ∧ ¬(((scrapeReviews none 0 [c9Doc]).2.length : Int) ≤ 0) := by
  exact ⟨by decide, by decide⟩

/-- C9 amended: the cap is enforced by the orchestrator after each appended
review; with a positive `max_items` the final accumulated sequence never
exceeds `max_items` records, and in general it never exceeds
`max(max_items, 1)` — a non-positive cap still admits the one record appended
before the check fires. -/
theorem item_cap_bound :
    (∀ (hint : Option String) (m : Int) (pages : List Node),
      ((scrapeReviews hint m pages).2.length : Int) ≤ max m 1)
    ∧ (∀ (hint : Option String) (m : Int) (pages : List Node), 1 ≤ m →
      ((scrapeReviews hint m pages).2.length : Int) ≤ m) := by
  have base : ∀ (hint : Option String) (m : Int) (pages : List Node),
      ((scrapeReviews hint m pages).2.length : Int) ≤ max m 1 := by
    intro hint m pages
    have h0 : ((([] : List ReviewRecord).length : Nat) : Int) < max m 1 := by
      simp
    exact scrapePages_len_bound hint m pages none [] h0
  refine ⟨base, ?_⟩
  intro hint m pages hm
  have hb := base hint m pages
  rwa [max_eq_left hm] at hb

/-! ## C10: falsy `reviewCount` falls back to `ratingCount` -/

/-- C10: in a lodging block, a falsy `reviewCount` (0, or any falsy value)
is treated as absent — `ratingCount` is used instead; when `ratingCount` is
also missing or falsy the block sets nothing, leaving `totalReviews` to the
subtitle strategy or the review-count derivation; concretely,
`reviewCount = 0` with `ratingCount = 7` yields 7. -/
theorem falsy_reviewcount_fallback :
    (∀ (tv : String) (af : List (String × Json)) (n : Int),
      (pyLower tv = ("hotel") ∨ pyLower tv = ("lodgingbusiness")) →
      (objGet af ("reviewCount")).truthy = false →
      (objGet af ("ratingCount")).truthy = true →
      pyInt (objGet af ("ratingCount")) = Except.ok n →
      populateStatsFromJsonld
        (Json.obj [(("@type"), Json.str tv), (("aggregateRating"), Json.obj af)]) none
        = Except.ok (some n))
    ∧ (∀ (tv : String) (af : List (String × Json)),
      (pyLower tv = ("hotel") ∨ pyLower tv = ("lodgingbusiness")) →
      (objGet af ("reviewCount")).truthy = false →
      (objGet af ("ratingCount")).truthy = false →
      populateStatsFromJsonld
        (Json.obj [(("@type"), Json.str tv), (("aggregateRating"), Json.obj af)]) none
        = Except.ok none)
    ∧ (∀ (soup : Node), jsonldTotal soup = none →
      (extractHotelStats soup).totalReviews = subtitleTotal soup)
    ∧ populateStatsFromJsonld
        (Json.obj [(("@type"), Json.str ("Hotel")),
          (("aggregateRating"),
            Json.obj [(("reviewCount"), Json.num 0), (("ratingCount"), Json.num 7)])]) none
      = Except.ok (some 7) := by
  refine ⟨?_, ?_, ?_, rfl⟩
  · intro tv af n h h1 h2 h3
    rw [populateLodgingBlockEval tv af h]
    simp only [h1, if_false, Bool.false_eq_true, h2, if_true, h3]
  · intro tv af h h1 h2
    rw [populateLodgingBlockEval tv af h]
    simp only [h1, h2, Bool.false_eq_true, if_false]
  · intro soup h
    simp [extractHotelStats, h]
